import Mathlib

/-!
# Verification of the Transcriptor GUI (src/transcriptor_gui.py)

Shallow embedding of the Transcriptor program: a GUI that selects an audio
file, shows a raw latin-1 preview of its first 3000 bytes, transcribes the
audio through a remote service on a background thread, and encrypts the
transcription with a freshly generated, immediately discarded Fernet key.

UI widget contents are modelled as fields of `AppState`; dialogs, network
calls and progress-bar operations are recorded in an `Event` trace.  Byte
strings are `List Nat` with values below 256.
-/

namespace Transcriptor

/-- The mutable UI state: the global `selected_file` and the contents of the
three text widgets (`text_raw`, `text_transcripcion`, `text_encriptado`),
plus whether the indeterminate progress bar is running. -/
structure AppState where
  selected_file : Option String
  text_raw : String
  text_transcripcion : String
  text_encriptado : String
  progress_running : Bool
  deriving Repr, DecidableEq

/-- The state at program start: no file selected, all text widgets empty,
progress bar stopped. -/
def initialState : AppState :=
  { selected_file := none
    text_raw := ""
    text_transcripcion := ""
    text_encriptado := ""
    progress_running := false }

/-- Observable side effects of an event handler, in order: message boxes
(`messagebox.showinfo` / `messagebox.showerror`), progress-bar start/stop,
the network call `client.audio.transcriptions.create`, and spawning the
background worker thread. -/
inductive Event where
  | showInfo (title msg : String)
  | showError (title msg : String)
  | progressStart
  | progressStop
  | networkCall (path modelName : String)
  | spawnWorker
  deriving Repr, DecidableEq

/-- Python truthiness of an optional string (`if not x`): `None` and the
empty string are falsy. -/
def pyFalsy : Option String → Bool
  | none => true
  | some s => s = ""

/-- The whitespace characters removed by Python's `str.strip()` (ASCII
whitespace; the text widgets only ever hold service output and a trailing
newline). -/
def pyIsSpace (c : Char) : Bool :=
  c = ' ' || c = '\t' || c = '\n' || c = '\u000d' || c = '\u000b' || c = '\u000c'

/-- Python's `str.strip()`: drop leading and trailing whitespace. -/
def pyStrip (s : String) : String :=
  String.mk (((s.data.dropWhile pyIsSpace).reverse.dropWhile pyIsSpace).reverse)

/-!
## Startup credential check (lines 45-51)

`API_KEY = os.getenv("OPENAI_API_KEY"); if not API_KEY: raise Exception(...)`
runs at module load, before any GUI object is created.
-/

/-- The environment lookup `os.getenv("OPENAI_API_KEY")`. -/
def apiKeyLookup (env : String → Option String) : Option String :=
  env "OPENAI_API_KEY"

/-- The startup check: `if not API_KEY: raise Exception("No se encontró la
API KEY en .env")`.  Falsy (absent or empty) credential raises. -/
def startupCheck (env : String → Option String) : Except String String :=
  match apiKeyLookup env with
  | none => Except.error "No se encontró la API KEY en .env"
  | some k => if k = "" then Except.error "No se encontró la API KEY en .env" else Except.ok k

/-- Module execution: the credential check runs first; only if it passes is
the GUI built (reaching `initialState`).  A raised exception aborts before
any widget exists. -/
def runProgram (env : String → Option String) : Except String AppState :=
  match startupCheck env with
  | Except.error e => Except.error e
  | Except.ok _ => Except.ok initialState

/-!
## File picker / raw viewer: `seleccionar_archivo` (lines 106-158)
-/

/-- latin-1 decoding of one byte: `bytes.decode('latin-1')` maps byte `b`
to the Unicode code point `b`. -/
def latin1Char (b : Nat) : Char := Char.ofNat b

/-- `raw[:3000].decode('latin-1')`: the raw preview string of a file's
content. -/
def rawPreview (raw : List Nat) : String :=
  String.mk ((raw.take 3000).map latin1Char)

/-- `seleccionar_archivo`: `filedialog.askopenfilename` returned `file`
(empty string on cancel) and the file on disk holds bytes `content`.
On a selection the global `selected_file` is set, the raw preview replaces
`text_raw`, and an info box is shown; on cancel nothing happens. -/
def seleccionar_archivo (file : String) (content : List Nat) (st : AppState) :
    AppState × List Event :=
  if file = "" then (st, [])
  else
    ({ st with
        selected_file := some file
        text_raw := rawPreview content },
     [Event.showInfo "Archivo cargado"
        ("Archivo cargado:\n" ++ file ++ "\n\nVista RAW mostrada arriba.")])

/-!
## Transcription: `transcribir` (lines 161-238)
-/

/-- Outcome of the body of the worker's `try` block: opening the selected
file can fail, the network call can fail, or the call returns a transcript. -/
inductive RunOutcome where
  | openFail (e : String)
  | callFail (e : String)
  | ok (text : String)
  deriving Repr, DecidableEq

/-- The worker `run()`: starts the progress bar, tries
`open` + `client.audio.transcriptions.create`, writes the transcript on
success, shows `str(e)` on any exception, and stops the progress bar after
the `try`/`except` on every path. -/
def runWorker (path : String) (outcome : RunOutcome) (st : AppState) :
    AppState × List Event :=
  match outcome with
  | RunOutcome.openFail e =>
      ({ st with progress_running := false },
       [Event.progressStart, Event.showError "Error" e, Event.progressStop])
  | RunOutcome.callFail e =>
      ({ st with progress_running := false },
       [Event.progressStart, Event.networkCall path "gpt-4o-transcribe",
        Event.showError "Error" e, Event.progressStop])
  | RunOutcome.ok t =>
      ({ st with text_transcripcion := t, progress_running := false },
       [Event.progressStart, Event.networkCall path "gpt-4o-transcribe",
        Event.progressStop])

/-- `transcribir`: `if not selected_file:` show the error and return;
otherwise spawn the worker thread running `run()`. -/
def transcribir (outcome : RunOutcome) (st : AppState) : AppState × List Event :=
  match st.selected_file with
  | none => (st, [Event.showError "Error" "Seleccione un archivo de audio primero"])
  | some path =>
      if path = "" then
        (st, [Event.showError "Error" "Seleccione un archivo de audio primero"])
      else
        let r := runWorker path outcome st
        (r.1, Event.spawnWorker :: r.2)

/-!
## Encryption: `encrypt_text` / `encriptar` (lines 66-99, 241-283)

`encrypt_text` calls the external `cryptography` library:
`key = Fernet.generate_key(); f = Fernet(key); f.encrypt(text.encode())`.
The Fernet token layout is concrete (version byte `0x80`, 8-byte big-endian
timestamp, 16-byte random IV, AES-128-CBC ciphertext of the PKCS7-padded
UTF-8 plaintext, 32-byte HMAC-SHA256 tag, all urlsafe-base64-encoded); the
AES and HMAC primitives live outside this repository, so they are abstract
parameters constrained only by their output lengths and byte ranges, which
every block cipher in CBC mode and every HMAC satisfy.
-/

/-- UTF-8 encoding of one character, as `str.encode()` produces it. -/
def utf8EncodeChar (c : Char) : List Nat :=
  if c.toNat < 128 then [c.toNat]
  else if c.toNat < 2048 then [192 + c.toNat / 64, 128 + c.toNat % 64]
  else if c.toNat < 65536 then
    [224 + c.toNat / 4096, 128 + c.toNat / 64 % 64, 128 + c.toNat % 64]
  else
    [240 + c.toNat / 262144, 128 + c.toNat / 4096 % 64, 128 + c.toNat / 64 % 64,
     128 + c.toNat % 64]

/-- `text.encode()`: UTF-8 bytes of a character list. -/
def strBytes : List Char → List Nat
  | [] => []
  | c :: cs => utf8EncodeChar c ++ strBytes cs

/-- PKCS7 padding to the AES block size of 16 bytes, as applied by Fernet
before CBC encryption: always appends between 1 and 16 bytes. -/
def pkcs7pad (msg : List Nat) : List Nat :=
  msg ++ List.replicate (16 - msg.length % 16) (16 - msg.length % 16)

/-- The 8-byte big-endian timestamp field of a Fernet token. -/
def tsBytes (t : Nat) : List Nat :=
  [t / 72057594037927936 % 256, t / 281474976710656 % 256,
   t / 1099511627776 % 256, t / 4294967296 % 256,
   t / 16777216 % 256, t / 65536 % 256, t / 256 % 256, t % 256]

/-- The cryptographic primitives Fernet is built on, external to this
repository: AES-128-CBC encryption and HMAC-SHA256, constrained only by
the shape of their output (CBC preserves the padded length, HMAC-SHA256
returns 32 bytes, both return bytes). -/
structure CipherModel where
  cbcEncrypt : List Nat → List Nat → List Nat → List Nat
  hmacSha256 : List Nat → List Nat → List Nat
  cbc_length : ∀ k iv m, (cbcEncrypt k iv m).length = m.length
  cbc_bytes : ∀ k iv m, ∀ b ∈ cbcEncrypt k iv m, b < 256
  hmac_length : ∀ k m, (hmacSha256 k m).length = 32
  hmac_bytes : ∀ k m, ∀ b ∈ hmacSha256 k m, b < 256

/-- The randomness one call to `encrypt_text` draws: the 32-byte key from
`Fernet.generate_key()` (16 signing bytes then 16 encryption bytes), the
16-byte IV drawn inside `f.encrypt`, and the current timestamp. -/
structure FernetRand where
  key : List Nat
  iv : List Nat
  timestamp : Nat

/-- The signed part of a Fernet token: `0x80 ‖ timestamp ‖ iv ‖ ciphertext`. -/
def fernetBasicParts (M : CipherModel) (r : FernetRand) (msg : List Nat) : List Nat :=
  (128 :: tsBytes r.timestamp) ++ r.iv ++
    M.cbcEncrypt (r.key.drop 16) r.iv (pkcs7pad msg)

/-- The full Fernet token bytes: signed part followed by its HMAC tag. -/
def fernetToken (M : CipherModel) (r : FernetRand) (msg : List Nat) : List Nat :=
  fernetBasicParts M r msg ++ M.hmacSha256 (r.key.take 16) (fernetBasicParts M r msg)

/-- The urlsafe base64 alphabet used by Fernet tokens. -/
def b64alphabet : List Char :=
  "ABCDEFGHIJKLMNOPQRSTUVWXYZabcdefghijklmnopqrstuvwxyz0123456789-_".data

/-- Base64 digit for a 6-bit value. -/
def b64c (i : Nat) : Char := b64alphabet.getD i '?'

/-- Index of a base64 digit in the alphabet (inverse of `b64c` on `< 64`). -/
def b64d (c : Char) : Nat := b64alphabet.findIdx (fun x => x == c)

/-- Standard base64 encoding of a byte list, three bytes at a time, with
`=` padding. -/
def b64encodeBytes : List Nat → List Char
  | [] => []
  | [b1] => [b64c (b1 / 4), b64c (b1 % 4 * 16), '=', '=']
  | [b1, b2] => [b64c (b1 / 4), b64c (b1 % 4 * 16 + b2 / 16), b64c (b2 % 16 * 4), '=']
  | b1 :: b2 :: b3 :: b4 :: rest =>
      b64c (b1 / 4) :: b64c (b1 % 4 * 16 + b2 / 16) ::
        b64c (b2 % 16 * 4 + b3 / 64) :: b64c (b3 % 64) :: b64encodeBytes (b4 :: rest)
  | [b1, b2, b3] =>
      [b64c (b1 / 4), b64c (b1 % 4 * 16 + b2 / 16), b64c (b2 % 16 * 4 + b3 / 64),
       b64c (b3 % 64)]

/-- Base64 decoding, the inverse of `b64encodeBytes` on byte input. -/
def b64decodeChars : List Char → List Nat
  | c1 :: c2 :: c3 :: c4 :: rest =>
      if c3 = '=' then [b64d c1 * 4 + b64d c2 / 16]
      else if c4 = '=' then
        [b64d c1 * 4 + b64d c2 / 16, b64d c2 % 16 * 16 + b64d c3 / 4]
      else
        (b64d c1 * 4 + b64d c2 / 16) :: (b64d c2 % 16 * 16 + b64d c3 / 4) ::
          (b64d c3 % 4 * 64 + b64d c4) :: b64decodeChars rest
  | _ => []

/-- `base64.urlsafe_b64encode(...).decode()`: the token as a string. -/
def b64encode (bs : List Nat) : String := String.mk (b64encodeBytes bs)

/-- `encrypt_text`: encrypt the UTF-8 bytes of `text` into a Fernet token
string under the call's fresh randomness `r`; only the token is returned,
the key in `r` is dropped. -/
def encrypt_text (M : CipherModel) (r : FernetRand) (text : String) : String :=
  b64encode (fernetToken M r (strBytes text.data))

/-- `encriptar`: strip the transcription widget's content; if empty show
the error and change nothing, else encrypt and replace `text_encriptado`. -/
def encriptar (M : CipherModel) (r : FernetRand) (st : AppState) :
    AppState × List Event :=
  let contenido := pyStrip st.text_transcripcion
  if contenido = "" then
    (st, [Event.showError "Error" "No hay texto transcrito para encriptar"])
  else
    ({ st with text_encriptado := encrypt_text M r contenido }, [])

/-- A concrete instance of the abstract primitives (length-preserving
"cipher", constant tag), used to instantiate universally quantified
theorems at concrete inputs. -/
def trivialCipher : CipherModel where
  cbcEncrypt := fun _ _ m => m.map (fun b => b % 256)
  hmacSha256 := fun _ _ => List.replicate 32 0
  cbc_length := by intro k iv m; simp
  cbc_bytes := by
    intro k iv m b hb
    simp only [List.mem_map] at hb
    obtain ⟨a, _, rfl⟩ := hb
    exact Nat.mod_lt _ (by omega)
  hmac_length := by intro k m; simp
  hmac_bytes := by intro k m b hb; simp at hb; omega

/-!
## Supporting lemmas
-/

lemma b64d_b64c : ∀ i < 64, b64d (b64c i) = i := by decide

lemma b64c_ne_pad : ∀ i < 64, b64c i ≠ '=' := by decide

lemma b64_roundtrip : ∀ bs : List Nat, (∀ b ∈ bs, b < 256) →
    b64decodeChars (b64encodeBytes bs) = bs
  | [], _ => rfl
  | [b1], h => by
      have h1 : b1 < 256 := h b1 (by simp)
      have e1 : b64d (b64c (b1 / 4)) = b1 / 4 := b64d_b64c _ (by omega)
      have e2 : b64d (b64c (b1 % 4 * 16)) = b1 % 4 * 16 := b64d_b64c _ (by omega)
      simp only [b64encodeBytes, b64decodeChars, if_pos, e1, e2, List.cons.injEq, and_true]
      omega
  | [b1, b2], h => by
      have h1 : b1 < 256 := h b1 (by simp)
      have h2 : b2 < 256 := h b2 (by simp)
      have n3 : b64c (b2 % 16 * 4) ≠ '=' := b64c_ne_pad _ (by omega)
      have e1 : b64d (b64c (b1 / 4)) = b1 / 4 := b64d_b64c _ (by omega)
      have e2 : b64d (b64c (b1 % 4 * 16 + b2 / 16)) = b1 % 4 * 16 + b2 / 16 :=
        b64d_b64c _ (by omega)
      have e3 : b64d (b64c (b2 % 16 * 4)) = b2 % 16 * 4 := b64d_b64c _ (by omega)
      simp only [b64encodeBytes, b64decodeChars, if_neg n3, if_pos, e1, e2, e3,
        List.cons.injEq, and_true]
      omega
  | [b1, b2, b3], h => by
      have h1 : b1 < 256 := h b1 (by simp)
      have h2 : b2 < 256 := h b2 (by simp)
      have h3 : b3 < 256 := h b3 (by simp)
      have n3 : b64c (b2 % 16 * 4 + b3 / 64) ≠ '=' := b64c_ne_pad _ (by omega)
      have n4 : b64c (b3 % 64) ≠ '=' := b64c_ne_pad _ (by omega)
      have e1 : b64d (b64c (b1 / 4)) = b1 / 4 := b64d_b64c _ (by omega)
      have e2 : b64d (b64c (b1 % 4 * 16 + b2 / 16)) = b1 % 4 * 16 + b2 / 16 :=
        b64d_b64c _ (by omega)
      have e3 : b64d (b64c (b2 % 16 * 4 + b3 / 64)) = b2 % 16 * 4 + b3 / 64 :=
        b64d_b64c _ (by omega)
      have e4 : b64d (b64c (b3 % 64)) = b3 % 64 := b64d_b64c _ (by omega)
      simp only [b64encodeBytes, b64decodeChars, if_neg n3, if_neg n4, e1, e2, e3, e4,
        List.cons.injEq, and_true]
      refine ⟨by omega, by omega, by omega⟩
  | b1 :: b2 :: b3 :: b4 :: rest, h => by
      have h1 : b1 < 256 := h b1 (by simp)
      have h2 : b2 < 256 := h b2 (by simp)
      have h3 : b3 < 256 := h b3 (by simp)
      have ih := b64_roundtrip (b4 :: rest) (fun b hb =>
        h b (List.mem_cons_of_mem _ (List.mem_cons_of_mem _ (List.mem_cons_of_mem _ hb))))
      have n3 : b64c (b2 % 16 * 4 + b3 / 64) ≠ '=' := b64c_ne_pad _ (by omega)
      have n4 : b64c (b3 % 64) ≠ '=' := b64c_ne_pad _ (by omega)
      have e1 : b64d (b64c (b1 / 4)) = b1 / 4 := b64d_b64c _ (by omega)
      have e2 : b64d (b64c (b1 % 4 * 16 + b2 / 16)) = b1 % 4 * 16 + b2 / 16 :=
        b64d_b64c _ (by omega)
      have e3 : b64d (b64c (b2 % 16 * 4 + b3 / 64)) = b2 % 16 * 4 + b3 / 64 :=
        b64d_b64c _ (by omega)
      have e4 : b64d (b64c (b3 % 64)) = b3 % 64 := b64d_b64c _ (by omega)
      simp only [b64encodeBytes, b64decodeChars, if_neg n3, if_neg n4, e1, e2, e3, e4,
        ih, List.cons.injEq, and_true, true_and]
      refine ⟨by omega, by omega, by omega⟩

lemma b64encodeBytes_length : ∀ bs : List Nat,
    (b64encodeBytes bs).length = (bs.length + 2) / 3 * 4
  | [] => rfl
  | [_] => by simp [b64encodeBytes]
  | [_, _] => by simp [b64encodeBytes]
  | [_, _, _] => by simp [b64encodeBytes]
  | _ :: _ :: _ :: b4 :: rest => by
      have ih := b64encodeBytes_length (b4 :: rest)
      simp only [b64encodeBytes, List.length_cons, ih]
      omega

lemma utf8EncodeChar_length_pos (c : Char) : 1 ≤ (utf8EncodeChar c).length := by
  unfold utf8EncodeChar
  split_ifs <;> simp

lemma char_toNat_lt (c : Char) : c.toNat < 1114112 := by
  have hv : c.val.toNat.isValidChar := c.valid
  have he : c.toNat = c.val.toNat := rfl
  rcases hv with h | ⟨h1, h2⟩ <;> omega

lemma utf8EncodeChar_lt (c : Char) : ∀ b ∈ utf8EncodeChar c, b < 256 := by
  have hc := char_toNat_lt c
  unfold utf8EncodeChar
  intro b hb
  split_ifs at hb <;> simp at hb <;> omega

lemma strBytes_length_ge : ∀ l : List Char, l.length ≤ (strBytes l).length
  | [] => by simp [strBytes]
  | c :: cs => by
      have h1 := utf8EncodeChar_length_pos c
      have h2 := strBytes_length_ge cs
      simp only [strBytes, List.length_append, List.length_cons]
      omega

lemma strBytes_lt : ∀ l : List Char, ∀ b ∈ strBytes l, b < 256
  | [] => by simp [strBytes]
  | c :: cs => by
      intro b hb
      simp only [strBytes, List.mem_append] at hb
      rcases hb with h | h
      · exact utf8EncodeChar_lt c b h
      · exact strBytes_lt cs b h

lemma pkcs7pad_length (m : List Nat) :
    (pkcs7pad m).length = m.length + (16 - m.length % 16) := by
  simp [pkcs7pad]

lemma pkcs7pad_lt (m : List Nat) (hm : ∀ b ∈ m, b < 256) :
    ∀ b ∈ pkcs7pad m, b < 256 := by
  intro b hb
  simp only [pkcs7pad, List.mem_append, List.mem_replicate] at hb
  rcases hb with h | ⟨-, rfl⟩
  · exact hm b h
  · omega

lemma tsBytes_lt (t : Nat) : ∀ b ∈ tsBytes t, b < 256 := by
  intro b hb
  simp only [tsBytes, List.mem_cons, List.not_mem_nil, or_false] at hb
  rcases hb with rfl | rfl | rfl | rfl | rfl | rfl | rfl | rfl <;> omega

lemma fernetBasicParts_length (M : CipherModel) (r : FernetRand) (msg : List Nat) :
    (fernetBasicParts M r msg).length = 9 + r.iv.length + (pkcs7pad msg).length := by
  simp only [fernetBasicParts, List.length_append, List.length_cons, M.cbc_length, tsBytes,
    List.length_nil]

lemma fernetToken_length (M : CipherModel) (r : FernetRand) (msg : List Nat) :
    (fernetToken M r msg).length = 41 + r.iv.length + (pkcs7pad msg).length := by
  simp only [fernetToken, List.length_append, fernetBasicParts_length, M.hmac_length]
  omega

lemma fernetBasicParts_lt (M : CipherModel) (r : FernetRand) (msg : List Nat)
    (hiv : ∀ b ∈ r.iv, b < 256) :
    ∀ b ∈ fernetBasicParts M r msg, b < 256 := by
  intro b hb
  simp only [fernetBasicParts, List.mem_append, List.mem_cons] at hb
  rcases hb with ((rfl | h) | h) | h
  · omega
  · exact tsBytes_lt _ b h
  · exact hiv b h
  · exact M.cbc_bytes _ _ _ b h

lemma fernetToken_lt (M : CipherModel) (r : FernetRand) (msg : List Nat)
    (hiv : ∀ b ∈ r.iv, b < 256) :
    ∀ b ∈ fernetToken M r msg, b < 256 := by
  intro b hb
  simp only [fernetToken, List.mem_append] at hb
  rcases hb with h | h
  · exact fernetBasicParts_lt M r msg hiv b h
  · exact M.hmac_bytes _ _ b h

lemma fernetToken_iv (M : CipherModel) (r : FernetRand) (msg : List Nat)
    (hiv : r.iv.length = 16) :
    ((fernetToken M r msg).drop 9).take 16 = r.iv := by
  have hsplit : fernetToken M r msg =
      (128 :: tsBytes r.timestamp) ++
        (r.iv ++ (M.cbcEncrypt (r.key.drop 16) r.iv (pkcs7pad msg) ++
          M.hmacSha256 (r.key.take 16) (fernetBasicParts M r msg))) := by
    simp [fernetToken, fernetBasicParts, List.append_assoc]
  have hlen : (128 :: tsBytes r.timestamp).length = 9 := by simp [tsBytes]
  rw [hsplit, show (9 : Nat) = (128 :: tsBytes r.timestamp).length from hlen.symm,
    List.drop_left, ← hiv, List.take_left]

lemma b64encode_length (bs : List Nat) :
    (b64encode bs).length = (bs.length + 2) / 3 * 4 := by
  simp [b64encode, String.length, b64encodeBytes_length]

lemma encrypt_text_length_lb (M : CipherModel) (r : FernetRand) (text : String) :
    text.length + 42 ≤ (encrypt_text M r text).length ∧
      76 ≤ (encrypt_text M r text).length := by
  have htok := fernetToken_length M r (strBytes text.data)
  have hpad := pkcs7pad_length (strBytes text.data)
  have hmsg := strBytes_length_ge text.data
  have hlen : (encrypt_text M r text).length =
      ((fernetToken M r (strBytes text.data)).length + 2) / 3 * 4 := by
    simp [encrypt_text, b64encode_length]
  have hdata : text.length = text.data.length := rfl
  omega

lemma encrypt_text_ne_self (M : CipherModel) (r : FernetRand) (text : String) :
    encrypt_text M r text ≠ text := by
  intro h
  have hlb := (encrypt_text_length_lb M r text).1
  have : (encrypt_text M r text).length = text.length := congrArg String.length h
  omega

lemma encrypt_text_ne_keyEncoding (M : CipherModel) (r : FernetRand) (text : String)
    (hkey : r.key.length = 32) :
    encrypt_text M r text ≠ b64encode r.key := by
  intro h
  have hlb := (encrypt_text_length_lb M r text).2
  have hk : (b64encode r.key).length = 44 := by simp [b64encode_length, hkey]
  have : (encrypt_text M r text).length = (b64encode r.key).length := congrArg String.length h
  omega

lemma encrypt_text_fresh (M : CipherModel) (r1 r2 : FernetRand) (text : String)
    (h1 : r1.iv.length = 16) (h2 : r2.iv.length = 16)
    (hb1 : ∀ b ∈ r1.iv, b < 256) (hb2 : ∀ b ∈ r2.iv, b < 256)
    (hne : r1.iv ≠ r2.iv) :
    encrypt_text M r1 text ≠ encrypt_text M r2 text := by
  intro h
  apply hne
  have hchars : b64encodeBytes (fernetToken M r1 (strBytes text.data)) =
      b64encodeBytes (fernetToken M r2 (strBytes text.data)) := by
    simpa [encrypt_text, b64encode] using congrArg String.data h
  have htok : fernetToken M r1 (strBytes text.data) =
      fernetToken M r2 (strBytes text.data) := by
    rw [← b64_roundtrip _ (fernetToken_lt M r1 _ hb1), hchars,
      b64_roundtrip _ (fernetToken_lt M r2 _ hb2)]
  rw [← fernetToken_iv M r1 (strBytes text.data) h1,
    ← fernetToken_iv M r2 (strBytes text.data) h2, htok]

set_option maxRecDepth 4096 in
lemma char_roundtrip : ∀ b < 256, (Char.ofNat b).toNat = b := by decide

lemma rawPreview_length (raw : List Nat) :
    (rawPreview raw).length = min raw.length 3000 := by
  simp only [rawPreview, String.length, List.length_map, List.length_take]
  exact Nat.min_comm _ _

lemma rawPreview_recover (raw : List Nat) (h : ∀ b ∈ raw, b < 256) :
    (rawPreview raw).data.map Char.toNat = raw.take 3000 := by
  show ((raw.take 3000).map latin1Char).map Char.toNat = raw.take 3000
  rw [List.map_map]
  have hc : ∀ b ∈ raw.take 3000, (Char.toNat ∘ latin1Char) b = id b := fun b hb =>
    char_roundtrip b (h b (List.take_subset _ _ hb))
  rw [List.map_congr_left hc, List.map_id]

/-!
## Concrete inputs used to instantiate the theorems
-/

/-- A state in which a file has been selected. -/
def wSelState : AppState := { initialState with selected_file := some "a.wav" }

/-- A state holding a non-empty transcription. -/
def wTextState : AppState := { initialState with text_transcripcion := "hola" }

/-- A state whose transcription widget holds only whitespace. -/
def wBlankState : AppState := { initialState with text_transcripcion := " \n " }

/-- Concrete call randomness: all-zero key and IV. -/
def wRand : FernetRand := ⟨List.replicate 32 0, List.replicate 16 0, 0⟩

/-- Concrete call randomness differing from `wRand` in the IV. -/
def wRand2 : FernetRand := ⟨List.replicate 32 0, 1 :: List.replicate 15 0, 0⟩

/-- An environment with no `OPENAI_API_KEY`. -/
def envMissing : String → Option String := fun _ => none

/-- An environment where `OPENAI_API_KEY` is set to the empty string. -/
def envEmptyKey : String → Option String := fun _ => some ""

/-!
## Claims
-/

/-- C4: invoking `transcribir` while `selected_file` is unset reports the
"select a file first" error, performs no network call, spawns no worker,
does not start the progress bar, and leaves the state unchanged. -/
theorem transcribir_no_file_guard (outcome : RunOutcome) (st : AppState)
    (h : st.selected_file = none) :
    transcribir outcome st =
      (st, [Event.showError "Error" "Seleccione un archivo de audio primero"]) ∧
    (∀ p m, Event.networkCall p m ∉ (transcribir outcome st).2) ∧
    Event.spawnWorker ∉ (transcribir outcome st).2 ∧
    Event.progressStart ∉ (transcribir outcome st).2 ∧
    (transcribir outcome st).1 = st := by
  simp [transcribir, h]

/-- Witness for C4: the guard at the initial state. -/
theorem transcribir_no_file_guard_witness :
    initialState.selected_file = none ∧
    (transcribir (RunOutcome.ok "x") initialState =
      (initialState,
        [Event.showError "Error" "Seleccione un archivo de audio primero"]) ∧
    (∀ p m, Event.networkCall p m ∉ (transcribir (RunOutcome.ok "x") initialState).2) ∧
    Event.spawnWorker ∉ (transcribir (RunOutcome.ok "x") initialState).2 ∧
    Event.progressStart ∉ (transcribir (RunOutcome.ok "x") initialState).2 ∧
    (transcribir (RunOutcome.ok "x") initialState).1 = initialState) :=
  ⟨rfl, transcribir_no_file_guard (RunOutcome.ok "x") initialState rfl⟩

/-- C6: on a successful transcription call the transcription display is
replaced with exactly the text the service returned. -/
theorem transcribir_success_verbatim (st : AppState) (path t : String)
    (hsel : st.selected_file = some path) (hpath : path ≠ "") :
    (transcribir (RunOutcome.ok t) st).1.text_transcripcion = t := by
  simp [transcribir, hsel, hpath, runWorker]

/-- Witness for C6: the service returns "hello world" and the display
becomes exactly "hello world". -/
theorem transcribir_success_verbatim_witness :
    wSelState.selected_file = some "a.wav" ∧ "a.wav" ≠ "" ∧
    (transcribir (RunOutcome.ok "hello world") wSelState).1.text_transcripcion =
      "hello world" :=
  ⟨rfl, by decide,
    transcribir_success_verbatim wSelState "a.wav" "hello world" rfl (by decide)⟩

/-- C3: when the network call raises, `transcribir` shows exactly the
exception's message, leaves the transcription display unchanged, and stops
the progress bar; the success path also stops the progress bar. -/
theorem transcribir_failure_handling (st : AppState) (path e t : String)
    (hsel : st.selected_file = some path) (hpath : path ≠ "") :
    (transcribir (RunOutcome.callFail e) st).1.text_transcripcion =
      st.text_transcripcion ∧
    Event.showError "Error" e ∈ (transcribir (RunOutcome.callFail e) st).2 ∧
    Event.progressStop ∈ (transcribir (RunOutcome.callFail e) st).2 ∧
    (transcribir (RunOutcome.callFail e) st).1.progress_running = false ∧
    Event.progressStop ∈ (transcribir (RunOutcome.ok t) st).2 ∧
    (transcribir (RunOutcome.ok t) st).1.progress_running = false := by
  simp [transcribir, hsel, hpath, runWorker]

/-- Witness for C3: a "rate limit exceeded" service error. -/
theorem transcribir_failure_handling_witness :
    wSelState.selected_file = some "a.wav" ∧ "a.wav" ≠ "" ∧
    ((transcribir (RunOutcome.callFail "rate limit exceeded") wSelState).1.text_transcripcion =
      wSelState.text_transcripcion ∧
    Event.showError "Error" "rate limit exceeded" ∈
      (transcribir (RunOutcome.callFail "rate limit exceeded") wSelState).2 ∧
    Event.progressStop ∈
      (transcribir (RunOutcome.callFail "rate limit exceeded") wSelState).2 ∧
    (transcribir (RunOutcome.callFail "rate limit exceeded") wSelState).1.progress_running
      = false ∧
    Event.progressStop ∈ (transcribir (RunOutcome.ok "hello world") wSelState).2 ∧
    (transcribir (RunOutcome.ok "hello world") wSelState).1.progress_running = false) :=
  ⟨rfl, by decide,
    transcribir_failure_handling wSelState "a.wav" "rate limit exceeded" "hello world"
      rfl (by decide)⟩

/-- C9: the worker's `try`/`except` also catches a failure to open the
selected file: the message is shown, the transcription display is
unchanged, the progress bar stops, and no network call is made. -/
theorem transcribir_open_failure_recovery (st : AppState) (path e : String)
    (hsel : st.selected_file = some path) (hpath : path ≠ "") :
    (transcribir (RunOutcome.openFail e) st).1.text_transcripcion =
      st.text_transcripcion ∧
    Event.showError "Error" e ∈ (transcribir (RunOutcome.openFail e) st).2 ∧
    Event.progressStop ∈ (transcribir (RunOutcome.openFail e) st).2 ∧
    (transcribir (RunOutcome.openFail e) st).1.progress_running = false ∧
    (∀ p m, Event.networkCall p m ∉ (transcribir (RunOutcome.openFail e) st).2) := by
  simp [transcribir, hsel, hpath, runWorker]

/-- Witness for C9: the selected file has been deleted, `open` raises. -/
theorem transcribir_open_failure_recovery_witness :
    wSelState.selected_file = some "a.wav" ∧ "a.wav" ≠ "" ∧
    ((transcribir (RunOutcome.openFail "No such file") wSelState).1.text_transcripcion =
      wSelState.text_transcripcion ∧
    Event.showError "Error" "No such file" ∈
      (transcribir (RunOutcome.openFail "No such file") wSelState).2 ∧
    Event.progressStop ∈
      (transcribir (RunOutcome.openFail "No such file") wSelState).2 ∧
    (transcribir (RunOutcome.openFail "No such file") wSelState).1.progress_running
      = false ∧
    (∀ p m, Event.networkCall p m ∉
      (transcribir (RunOutcome.openFail "No such file") wSelState).2)) :=
  ⟨rfl, by decide,
    transcribir_open_failure_recovery wSelState "a.wav" "No such file" rfl (by decide)⟩

/-- C7: a cancelled file dialog leaves `selected_file`, every display and
the whole state unchanged, and shows no message. -/
theorem seleccionar_archivo_cancel_noop (content : List Nat) (st : AppState) :
    seleccionar_archivo "" content st = (st, []) := by
  simp [seleccionar_archivo]

/-- C2: after selecting a file whose bytes are `content`, the raw preview
has length `min content.length 3000` and maps each of the first 3000 bytes
1:1 to a character whose code point is the byte value, so the prefix is
recoverable from the display. -/
theorem seleccionar_archivo_raw_preview (file : String) (content : List Nat)
    (st : AppState) (hfile : file ≠ "") (hbytes : ∀ b ∈ content, b < 256) :
    ((seleccionar_archivo file content st).1.text_raw).length =
      min content.length 3000 ∧
    ((seleccionar_archivo file content st).1.text_raw).data.map Char.toNat =
      content.take 3000 := by
  simp [seleccionar_archivo, hfile, rawPreview_length, rawPreview_recover content hbytes]

/-- Witness for C2: the spec's scenario, a 10-byte all-zero "sample.wav". -/
theorem seleccionar_archivo_raw_preview_witness :
    "sample.wav" ≠ "" ∧ (∀ b ∈ List.replicate 10 0, b < 256) ∧
    (((seleccionar_archivo "sample.wav" (List.replicate 10 0) initialState).1.text_raw).length =
      min (List.replicate 10 0 : List Nat).length 3000 ∧
    ((seleccionar_archivo "sample.wav" (List.replicate 10 0) initialState).1.text_raw).data.map
      Char.toNat = (List.replicate 10 0 : List Nat).take 3000) :=
  ⟨by decide, by decide,
    seleccionar_archivo_raw_preview "sample.wav" (List.replicate 10 0) initialState
      (by decide) (by decide)⟩

/-- C5: invoking `encriptar` while the stripped transcription text is empty
reports the "nothing to encrypt" error and changes nothing, in particular
the encrypted-output display. -/
theorem encriptar_empty_guard (M : CipherModel) (r : FernetRand) (st : AppState)
    (h : pyStrip st.text_transcripcion = "") :
    encriptar M r st =
      (st, [Event.showError "Error" "No hay texto transcrito para encriptar"]) ∧
    (encriptar M r st).1.text_encriptado = st.text_encriptado := by
  simp [encriptar, h]

/-- Witness for C5: a whitespace-only transcription widget. -/
theorem encriptar_empty_guard_witness :
    pyStrip wBlankState.text_transcripcion = "" ∧
    (encriptar trivialCipher wRand wBlankState =
      (wBlankState,
        [Event.showError "Error" "No hay texto transcrito para encriptar"]) ∧
    (encriptar trivialCipher wRand wBlankState).1.text_encriptado =
      wBlankState.text_encriptado) :=
  ⟨by decide, encriptar_empty_guard trivialCipher wRand wBlankState (by decide)⟩

/-- C1: on a non-empty stripped transcription, `encriptar` writes the
Fernet token of the text to the encrypted display; the token differs from
the plaintext; a second call with different fresh randomness yields a
different token; the returned token is not the key's encoding; and every
other state component is unchanged, so the discarded key is nowhere in the
post-call state. -/
theorem encriptar_fresh_key_obfuscation (M : CipherModel) (r r2 : FernetRand)
    (st : AppState)
    (hne : pyStrip st.text_transcripcion ≠ "")
    (hkey : r.key.length = 32)
    (hiv : r.iv.length = 16) (hivb : ∀ b ∈ r.iv, b < 256)
    (hiv2 : r2.iv.length = 16) (hivb2 : ∀ b ∈ r2.iv, b < 256)
    (hfresh : r.iv ≠ r2.iv) :
    encriptar M r st =
      ({ st with
          text_encriptado := encrypt_text M r (pyStrip st.text_transcripcion) }, []) ∧
    encrypt_text M r (pyStrip st.text_transcripcion) ≠ pyStrip st.text_transcripcion ∧
    encrypt_text M r2 (pyStrip st.text_transcripcion) ≠
      encrypt_text M r (pyStrip st.text_transcripcion) ∧
    encrypt_text M r (pyStrip st.text_transcripcion) ≠ b64encode r.key ∧
    (encriptar M r st).1.selected_file = st.selected_file ∧
    (encriptar M r st).1.text_raw = st.text_raw ∧
    (encriptar M r st).1.text_transcripcion = st.text_transcripcion := by
  refine ⟨by simp [encriptar, hne], encrypt_text_ne_self M r _,
    (encrypt_text_fresh M r r2 _ hiv hiv2 hivb hivb2 hfresh).symm,
    encrypt_text_ne_keyEncoding M r _ hkey, ?_, ?_, ?_⟩ <;>
    simp [encriptar, hne]

/-- Witness for C1: encrypting "hola" under two distinct fresh IVs. -/
theorem encriptar_fresh_key_obfuscation_witness :
    pyStrip wTextState.text_transcripcion ≠ "" ∧
    wRand.key.length = 32 ∧
    wRand.iv.length = 16 ∧ (∀ b ∈ wRand.iv, b < 256) ∧
    wRand2.iv.length = 16 ∧ (∀ b ∈ wRand2.iv, b < 256) ∧
    wRand.iv ≠ wRand2.iv ∧
    (encriptar trivialCipher wRand wTextState =
      ({ wTextState with
          text_encriptado :=
            encrypt_text trivialCipher wRand (pyStrip wTextState.text_transcripcion) },
        []) ∧
    encrypt_text trivialCipher wRand (pyStrip wTextState.text_transcripcion) ≠
      pyStrip wTextState.text_transcripcion ∧
    encrypt_text trivialCipher wRand2 (pyStrip wTextState.text_transcripcion) ≠
      encrypt_text trivialCipher wRand (pyStrip wTextState.text_transcripcion) ∧
    encrypt_text trivialCipher wRand (pyStrip wTextState.text_transcripcion) ≠
      b64encode wRand.key ∧
    (encriptar trivialCipher wRand wTextState).1.selected_file =
      wTextState.selected_file ∧
    (encriptar trivialCipher wRand wTextState).1.text_raw = wTextState.text_raw ∧
    (encriptar trivialCipher wRand wTextState).1.text_transcripcion =
      wTextState.text_transcripcion) :=
  ⟨by decide, by decide, by decide, by decide, by decide, by decide, by decide,
    encriptar_fresh_key_obfuscation trivialCipher wRand wRand2 wTextState
      (by decide) (by decide) (by decide) (by decide) (by decide) (by decide) (by decide)⟩

/-- C8: with no `OPENAI_API_KEY` in the environment, module load raises the
descriptive exception and the GUI is never built. -/
theorem startup_missing_credential_aborts (env : String → Option String)
    (h : env "OPENAI_API_KEY" = none) :
    runProgram env = Except.error "No se encontró la API KEY en .env" ∧
    ∀ st, runProgram env ≠ Except.ok st := by
  refine ⟨by simp [runProgram, startupCheck, apiKeyLookup, h], fun st hst => ?_⟩
  simp [runProgram, startupCheck, apiKeyLookup, h] at hst

/-- Witness for C8: an empty environment. -/
theorem startup_missing_credential_aborts_witness :
    envMissing "OPENAI_API_KEY" = none ∧
    (runProgram envMissing = Except.error "No se encontró la API KEY en .env" ∧
    ∀ st, runProgram envMissing ≠ Except.ok st) :=
  ⟨rfl, startup_missing_credential_aborts envMissing rfl⟩

/-- C10: `OPENAI_API_KEY=""` is falsy in `if not API_KEY`, so startup
aborts with the same error as when the variable is absent. -/
theorem startup_empty_credential_aborts (env : String → Option String)
    (h : env "OPENAI_API_KEY" = some "") :
    runProgram env = Except.error "No se encontró la API KEY en .env" ∧
    ∀ st, runProgram env ≠ Except.ok st := by
  refine ⟨by simp [runProgram, startupCheck, apiKeyLookup, h], fun st hst => ?_⟩
  simp [runProgram, startupCheck, apiKeyLookup, h] at hst

/-- Witness for C10: an environment holding the empty string. -/
theorem startup_empty_credential_aborts_witness :
    envEmptyKey "OPENAI_API_KEY" = some "" ∧
    (runProgram envEmptyKey = Except.error "No se encontró la API KEY en .env" ∧
    ∀ st, runProgram envEmptyKey ≠ Except.ok st) :=
  ⟨rfl, startup_empty_credential_aborts envEmptyKey rfl⟩

end Transcriptor
